import Mathlib

/-!
Verification of the guitar-ai-coach front-end against its specification.

The development shallowly embeds the pure logic of the front-end:
* the client-side validator (`isLikelyAudioFile`, `validateAndSetFile`,
  `formatMB`) from `src/frontend/src/pages/index.tsx`;
* the plain-text report formatter (`formatCoachReport`) from
  `src/frontend/src/utils/formatReport.ts`;
* the HTTP error normalizer (`handleResponse`) from
  `src/frontend/src/services/api.ts`;
* the recorder stop-completion handler (`onstop`) from
  `src/frontend/src/pages/index.tsx`;
* the clipboard legacy fallback from `src/frontend/src/utils/copyToClipboard.ts`.

JavaScript numbers are modelled by `Nat`/`Int`/`Rat` (the relevant code never
overflows or hits binary-float rounding at the granularity the statements use;
where the code can receive NaN/Infinity a dedicated constructor models it).
JavaScript string helpers (`join`, `trimEnd`, `toFixed`) are modelled by
explicit Lean functions defined below.
-/

/-! ## Constants from `src/frontend/src/pages/index.tsx` -/

def MIN_SECONDS : Nat := 15

def MAX_SECONDS : Nat := 90

def MAX_MB : Nat := 10

/-- `ACCEPT_EXTENSIONS = [".wav", ".mp3", ".m4a"]`. -/
def ACCEPT_EXTENSIONS : List String := [".wav", ".mp3", ".m4a"]

/-- The cap in bytes: `MAX_MB * 1024 * 1024`. -/
def maxBytes : Nat := MAX_MB * 1024 * 1024

/-! ## Candidate files and the duration probe -/

/-- A candidate audio blob as the validator sees it: a `File` with a name,
a MIME type string (`file.type`, possibly empty) and a byte length. -/
structure FileCand where
  name : String
  mime : String
  size : Nat
deriving DecidableEq, Repr

/-- Outcome of `getAudioDurationSeconds` (the blob metadata load).
`loadError` models the promise rejecting; `nonFinite` models a duration for
which `Number.isFinite` is false (NaN or ±Infinity); `finite d` models a
finite double, embedded as an exact rational. -/
inductive ProbeOutcome where
  | loadError
  | nonFinite
  | finite (d : ℚ)
deriving DecidableEq

/-- JavaScript `String.prototype.toLowerCase` (ASCII range, which covers every
string the validator compares). -/
def jsToLower (s : String) : String := ⟨s.data.map Char.toLower⟩

/-- JavaScript `String.prototype.endsWith` with no extra argument. -/
def jsEndsWith (s pat : String) : Bool := pat.data.isSuffixOf s.data

/-- JavaScript `String.prototype.startsWith` with no extra argument. -/
def jsStartsWith (s pat : String) : Bool := pat.data.isPrefixOf s.data

/-- `isLikelyAudioFile` from `index.tsx` lines 82–89: lowercased-name
extension allow-list, OR (when the MIME string is truthy, i.e. non-empty)
the MIME type starts with `"audio/"` (the source constant
`ACCEPT_MIME_PREFIX`). -/
def isLikelyAudioFile (f : FileCand) : Bool :=
  let name := jsToLower f.name
  let hasAllowedExt := ACCEPT_EXTENSIONS.any (fun ext => jsEndsWith name ext)
  let hasAudioMime := if f.mime ≠ "" then jsStartsWith f.mime "audio/" else false
  hasAllowedExt || hasAudioMime

/-- JavaScript `Math.round` on an exact rational: round half toward +∞. -/
def jsRound (x : ℚ) : ℤ := ⌊x + 1 / 2⌋

/-- `formatMB` from `index.tsx` lines 50–52: `(bytes / (1024*1024)).toFixed(2)`.
`toFixed(2)` renders with exactly two decimal places, rounding to the nearest
hundredth and picking the larger value on a tie; computed here on the exact
quotient. -/
def formatMB (bytes : Nat) : String :=
  let hundredths := (bytes * 100 * 2 + 1048576) / 2097152
  let frac := hundredths % 100
  let fracStr := if frac < 10 then "0" ++ toString frac else toString frac
  toString (hundredths / 100) ++ "." ++ fracStr

/-- How JavaScript prints the normalized duration `Math.round(d*10)/10`,
given as a count of tenths of a second (nonnegative in every reachable use):
an integer prints without a decimal point, otherwise one decimal digit. -/
def renderTenths (t : ℤ) : String :=
  if t % 10 = 0 then toString (t / 10)
  else toString (t / 10) ++ "." ++ toString (t % 10)

def invalidTypeMsg : String :=
  "Invalid file type. Please upload a WAV, MP3, or M4A audio file."

def sizeErrMsg (bytes : Nat) : String :=
  "File too large. Max size is 10MB. Your file is " ++ formatMB bytes ++ "MB."

def durationReadErrMsg : String :=
  "Could not read audio duration. Try converting your clip to WAV and re-uploading."

def tooShortMsg (tenths : ℤ) : String :=
  "File too short. Minimum is 15s. Your clip is " ++ renderTenths tenths ++ "s."

def tooLongMsg (tenths : ℤ) : String :=
  "File too long. Maximum is 90s. Your clip is " ++ renderTenths tenths ++ "s."

/-- Validation verdict: `invalid` carries the user-facing reason set via
`setError`; `valid` carries the normalized duration stored via
`setDurationSeconds`. -/
inductive VResult where
  | invalid (msg : String)
  | valid (normalized : ℚ)
deriving DecidableEq

/-- `validateAndSetFile` from `index.tsx` lines 261–321, as a pure function of
the candidate file and the duration-probe outcome.  The second component
records whether control reached step 3, i.e. whether
`getAudioDurationSeconds` was invoked. -/
def validateAndSetFile (f : FileCand) (probe : ProbeOutcome) : VResult × Bool :=
  -- 1) Type check
  if isLikelyAudioFile f = false then (.invalid invalidTypeMsg, false)
  -- 2) Size check
  else if f.size > maxBytes then (.invalid (sizeErrMsg f.size), false)
  -- 3) Duration check
  else
    match probe with
    | .loadError => (.invalid durationReadErrMsg, true)
    | .nonFinite => (.invalid durationReadErrMsg, true)
    | .finite d =>
      if d ≤ 0 then (.invalid durationReadErrMsg, true)
      else
        let tenths : ℤ := jsRound (d * 10)
        let normalized : ℚ := (tenths : ℚ) / 10
        if normalized < (MIN_SECONDS : ℚ) then (.invalid (tooShortMsg tenths), true)
        else if normalized > (MAX_SECONDS : ℚ) then (.invalid (tooLongMsg tenths), true)
        else (.valid normalized, true)

/-- C1: a file failing the type check is rejected with the invalid-file-type
reason with the probe never invoked and independently of what the probe would
return; a file passing the type check but exceeding the cap is rejected by the
size check with the probe never invoked; only when both type and size pass is
the duration probe invoked — i.e. the checks short-circuit in the order
type, size, duration, first failure winning. -/
theorem validation_order_type_first :
    (∀ (f : FileCand) (p q : ProbeOutcome), isLikelyAudioFile f = false →
        validateAndSetFile f p = (VResult.invalid invalidTypeMsg, false) ∧
        validateAndSetFile f p = validateAndSetFile f q) ∧
    (∀ (f : FileCand) (p : ProbeOutcome), isLikelyAudioFile f = true →
        f.size > maxBytes →
        validateAndSetFile f p = (VResult.invalid (sizeErrMsg f.size), false)) ∧
    (∀ (f : FileCand) (p : ProbeOutcome), isLikelyAudioFile f = true →
        f.size ≤ maxBytes → (validateAndSetFile f p).2 = true) := by
  refine ⟨fun f p q h => ?_, fun f p h hs => ?_, fun f p h hs => ?_⟩
  · constructor <;> simp [validateAndSetFile, h]
  · simp [validateAndSetFile, h, hs]
  · have hns : ¬ f.size > maxBytes := Nat.not_lt.mpr hs
    cases p with
    | loadError => simp [validateAndSetFile, h, hns]
    | nonFinite => simp [validateAndSetFile, h, hns]
    | finite d =>
      simp only [validateAndSetFile, h, Bool.true_eq_false, if_false, hns, if_neg]
      split
      · rfl
      · split
        · rfl
        · split
          · rfl
          · rfl

/-- C1 witness: a PDF (wrong extension, non-audio MIME) is rejected as an
invalid type without probing; a WAV over the cap is rejected by size without
probing; a small WAV reaches the probe. -/
theorem validation_order_type_first_witness :
    (validateAndSetFile ⟨"notes.pdf", "application/pdf", 1000⟩ ProbeOutcome.loadError
        = (VResult.invalid invalidTypeMsg, false) ∧
      validateAndSetFile ⟨"notes.pdf", "application/pdf", 1000⟩ ProbeOutcome.loadError
        = validateAndSetFile ⟨"notes.pdf", "application/pdf", 1000⟩ (ProbeOutcome.finite 30)) ∧
    validateAndSetFile ⟨"clip.wav", "audio/wav", 20000000⟩ (ProbeOutcome.finite 30)
      = (VResult.invalid (sizeErrMsg 20000000), false) ∧
    (validateAndSetFile ⟨"clip.wav", "audio/wav", 1000⟩ ProbeOutcome.loadError).2 = true :=
  ⟨validation_order_type_first.1 ⟨"notes.pdf", "application/pdf", 1000⟩
      ProbeOutcome.loadError (ProbeOutcome.finite 30) (by decide),
    validation_order_type_first.2.1 ⟨"clip.wav", "audio/wav", 20000000⟩
      (ProbeOutcome.finite 30) (by decide) (by decide),
    validation_order_type_first.2.2 ⟨"clip.wav", "audio/wav", 1000⟩
      ProbeOutcome.loadError (by decide) (by decide)⟩

/-- C2: once type and size pass, a load failure or a non-finite or non-positive
probed duration is rejected with the duration-read message before any
normalization; for a positive finite duration `d` the validator computes
`round(d*10)/10` and rejects strictly below 15 or strictly above 90 with the
normalized value reported in the message, accepting (and storing the
normalized value) otherwise. -/
theorem duration_bounds_normalized :
    ∀ (f : FileCand), isLikelyAudioFile f = true → f.size ≤ maxBytes →
      (validateAndSetFile f ProbeOutcome.loadError
        = (VResult.invalid durationReadErrMsg, true)) ∧
      (validateAndSetFile f ProbeOutcome.nonFinite
        = (VResult.invalid durationReadErrMsg, true)) ∧
      (∀ d : ℚ, d ≤ 0 →
        validateAndSetFile f (ProbeOutcome.finite d)
          = (VResult.invalid durationReadErrMsg, true)) ∧
      (∀ d : ℚ, 0 < d →
        ((jsRound (d * 10) : ℚ) / 10 < 15 →
          validateAndSetFile f (ProbeOutcome.finite d)
            = (VResult.invalid (tooShortMsg (jsRound (d * 10))), true)) ∧
        ((jsRound (d * 10) : ℚ) / 10 > 90 →
          validateAndSetFile f (ProbeOutcome.finite d)
            = (VResult.invalid (tooLongMsg (jsRound (d * 10))), true)) ∧
        (15 ≤ (jsRound (d * 10) : ℚ) / 10 → (jsRound (d * 10) : ℚ) / 10 ≤ 90 →
          validateAndSetFile f (ProbeOutcome.finite d)
            = (VResult.valid ((jsRound (d * 10) : ℚ) / 10), true))) := by
  intro f h hs
  have hns : ¬ f.size > maxBytes := Nat.not_lt.mpr hs
  refine ⟨by simp [validateAndSetFile, h, hns],
    by simp [validateAndSetFile, h, hns],
    fun d hd => by simp [validateAndSetFile, h, hns, hd],
    fun d hd => ?_⟩
  have hd' : ¬ d ≤ 0 := not_le.mpr hd
  refine ⟨fun hlt => ?_, fun hgt => ?_, fun h1 h2 => ?_⟩
  · simp [validateAndSetFile, h, hns, hd', MIN_SECONDS, hlt]
  · have hnlt : ¬ ((jsRound (d * 10) : ℚ) / 10 < 15) :=
      not_lt.mpr (le_trans (by norm_num) (le_of_lt hgt))
    simp [validateAndSetFile, h, hns, hd', MIN_SECONDS, MAX_SECONDS, hnlt, hgt]
  · have hnlt : ¬ ((jsRound (d * 10) : ℚ) / 10 < 15) := not_lt.mpr h1
    have hngt : ¬ ((jsRound (d * 10) : ℚ) / 10 > 90) := not_lt.mpr h2
    simp [validateAndSetFile, h, hns, hd', MIN_SECONDS, MAX_SECONDS, hnlt, hngt]

/-- C2 witness: on a small WAV, a metadata-load failure and a non-positive
duration are rejected with the diagnostic message; a 10-second clip is too
short ("10s"); a 30-second clip validates at 30 seconds. -/
theorem duration_bounds_normalized_witness :
    (validateAndSetFile ⟨"clip.wav", "audio/wav", 1000⟩ ProbeOutcome.loadError
      = (VResult.invalid durationReadErrMsg, true)) ∧
    (validateAndSetFile ⟨"clip.wav", "audio/wav", 1000⟩ (ProbeOutcome.finite (-1))
      = (VResult.invalid durationReadErrMsg, true)) ∧
    (validateAndSetFile ⟨"clip.wav", "audio/wav", 1000⟩ (ProbeOutcome.finite 10)
      = (VResult.invalid (tooShortMsg (jsRound (10 * 10))), true)) ∧
    (validateAndSetFile ⟨"clip.wav", "audio/wav", 1000⟩ (ProbeOutcome.finite 30)
      = (VResult.valid ((jsRound (30 * 10) : ℚ) / 10), true)) :=
  ⟨(duration_bounds_normalized ⟨"clip.wav", "audio/wav", 1000⟩ (by decide) (by decide)).1,
    (duration_bounds_normalized ⟨"clip.wav", "audio/wav", 1000⟩ (by decide)
      (by decide)).2.2.1 (-1) (by norm_num),
    ((duration_bounds_normalized ⟨"clip.wav", "audio/wav", 1000⟩ (by decide)
      (by decide)).2.2.2 10 (by norm_num)).1 (by norm_num [jsRound]),
    ((duration_bounds_normalized ⟨"clip.wav", "audio/wav", 1000⟩ (by decide)
      (by decide)).2.2.2 30 (by norm_num)).2.2 (by norm_num [jsRound]) (by norm_num [jsRound])⟩

/-- Rendering of the size to one decimal place, following the words of the
claim ("formatted to one decimal place") and of spec §4.2 ("message reports
actual size to one decimal MB"); defined only to compare against the code's
`formatMB`. Round-half-up on the exact quotient. -/
def specFormatMBOneDecimal (bytes : Nat) : String :=
  let tens := (bytes * 10 * 2 + 1048576) / 2097152
  toString (tens / 10) ++ "." ++ toString (tens % 10)

/-- C6 counterexample: an 11 MB file (11534336 bytes) is rejected with the
message reporting "11.00MB" — two decimal places (`toFixed(2)` in `formatMB`),
not the one decimal place ("11.0") the claim states. -/
theorem size_message_one_decimal_cex :
    validateAndSetFile ⟨"big.wav", "audio/wav", 11534336⟩ ProbeOutcome.loadError
      = (VResult.invalid "File too large. Max size is 10MB. Your file is 11.00MB.", false) ∧
    specFormatMBOneDecimal 11534336 = "11.0" ∧
    formatMB 11534336 ≠ specFormatMBOneDecimal 11534336 := by
  refine ⟨by decide, by decide, by decide⟩

/-- C6 (amended): a blob over the 10 MB cap is rejected without the duration
probe ever being invoked, and the rejection message reports the blob's actual
size in MB formatted to two decimal places (the code's `toFixed(2)`). -/
theorem size_cap_two_decimal_message :
    ∀ (f : FileCand) (p : ProbeOutcome), isLikelyAudioFile f = true →
      f.size > maxBytes →
      validateAndSetFile f p
        = (VResult.invalid ("File too large. Max size is 10MB. Your file is "
            ++ formatMB f.size ++ "MB."), false) := by
  intro f p h hs
  simp [validateAndSetFile, h, hs, sizeErrMsg]

/-- C6 amended-claim witness at the 11 MB file. -/
theorem size_cap_two_decimal_message_witness :
    validateAndSetFile ⟨"big.wav", "audio/wav", 11534336⟩ ProbeOutcome.loadError
      = (VResult.invalid ("File too large. Max size is 10MB. Your file is "
          ++ formatMB 11534336 ++ "MB."), false) :=
  size_cap_two_decimal_message ⟨"big.wav", "audio/wav", 11534336⟩
    ProbeOutcome.loadError (by decide) (by decide)

/-- C10: with an empty MIME type the type check is decided by the
case-insensitive extension allow-list (accepting when some allow-listed
extension matches, rejecting when none does), and any MIME type starting with
`audio/` is accepted regardless of the extension. -/
theorem extension_or_mime_type_check :
    (∀ f : FileCand, f.mime = "" →
      (∃ ext ∈ ACCEPT_EXTENSIONS, jsEndsWith (jsToLower f.name) ext = true) →
      isLikelyAudioFile f = true) ∧
    (∀ f : FileCand, jsStartsWith f.mime "audio/" = true →
      isLikelyAudioFile f = true) ∧
    (∀ f : FileCand, f.mime = "" →
      (∀ ext ∈ ACCEPT_EXTENSIONS, jsEndsWith (jsToLower f.name) ext = false) →
      isLikelyAudioFile f = false) := by
  refine ⟨fun f hm hex => ?_, fun f h => ?_, fun f hm hall => ?_⟩
  · obtain ⟨ext, hmem, hend⟩ := hex
    simp only [isLikelyAudioFile, Bool.or_eq_true, List.any_eq_true]
    exact Or.inl ⟨ext, hmem, hend⟩
  · have hne : f.mime ≠ "" := by
      intro he
      rw [he] at h
      exact absurd h (by decide)
    simp [isLikelyAudioFile, hne, h]
  · simp only [isLikelyAudioFile, hm, ne_eq, not_true_eq_false, if_false,
      Bool.or_false, List.any_eq_false]
    intro ext hmem
    simp [hall ext hmem]

/-- C10 witness: "CLIP.WAV" with empty MIME passes; an `audio/`-MIME file with
a non-allow-listed extension passes; an empty-MIME file with a
non-allow-listed extension is rejected. -/
theorem extension_or_mime_type_check_witness :
    isLikelyAudioFile ⟨"CLIP.WAV", "", 0⟩ = true ∧
    isLikelyAudioFile ⟨"track.bin", "audio/webm", 0⟩ = true ∧
    isLikelyAudioFile ⟨"track.bin", "", 0⟩ = false :=
  ⟨extension_or_mime_type_check.1 ⟨"CLIP.WAV", "", 0⟩ rfl
      ⟨".wav", by decide, by decide⟩,
    extension_or_mime_type_check.2.1 ⟨"track.bin", "audio/webm", 0⟩ (by decide),
    extension_or_mime_type_check.2.2 ⟨"track.bin", "", 0⟩ rfl (by decide)⟩

/-! ## The coach report formatter (`src/frontend/src/utils/formatReport.ts`)

The plan is embedded with every field the formatter dereferences optionally
marked `Option`, since the formatter guards each access (`?.`, `??`, `||`);
numeric payload fields are embedded as integers (how the backend populates
them), rendered with JavaScript's integer printing. -/

structure CoachSummary where
  primary_issue : Option String
  evidence : Option (List String)
  confidence : Option String
deriving DecidableEq, Repr

structure CoachDrill where
  name : Option String
  duration_min : Option ℤ
  minutes : Option ℤ
  tempo_bpm : Option ℤ
  instructions : Option (List String)
  success_criteria : Option (List String)
deriving DecidableEq, Repr

structure CoachResponse where
  summary : Option CoachSummary
  drills : Option (List CoachDrill)
  total_minutes : Option ℤ
  disclaimer : Option String
deriving DecidableEq, Repr

/-- JavaScript truthiness of a possibly absent string: `undefined`, `null`
and `""` are falsy. -/
def jsTruthyStr (o : Option String) : Bool :=
  match o with
  | some s => decide (s ≠ "")
  | none => false

/-- `plan?.total_minutes ?? "N/A"`, interpolated. -/
def renderOptIntNA (o : Option ℤ) : String :=
  match o with
  | some n => toString n
  | none => "N/A"

/-- `d.name || "Untitled"`. -/
def drillName (d : CoachDrill) : String :=
  if jsTruthyStr d.name then (d.name).getD "" else "Untitled"

/-- `d.duration_min ?? (d as any).minutes ?? "(unspecified)"`, interpolated. -/
def drillMinutesStr (d : CoachDrill) : String :=
  match d.duration_min with
  | some v => toString v
  | none =>
    match d.minutes with
    | some v => toString v
    | none => "(unspecified)"

/-- The `, {tempo} bpm` segment, present only when `d.tempo_bpm ?? null` is
neither null nor undefined. -/
def drillTempoSegment (d : CoachDrill) : String :=
  match d.tempo_bpm with
  | some t => ", " ++ toString t ++ " bpm"
  | none => ""

/-- The `Drill {idx+1}: {name} ({minutes} min{tempo})` header line. -/
def drillHeader (idx : ℕ) (d : CoachDrill) : String :=
  "Drill " ++ toString (idx + 1) ++ ": " ++ drillName d ++ " ("
    ++ drillMinutesStr d ++ " min" ++ drillTempoSegment d ++ ")"

/-- `xs.forEach((e) => parts.push(`- ${e}`))`. -/
def bulletList (l : List String) : List String := l.map (fun e => "- " ++ e)

/-- The parts pushed for one drill. -/
def drillParts (idx : ℕ) (d : CoachDrill) : List String :=
  let instr := (d.instructions).getD []
  let crit := (d.success_criteria).getD []
  [drillHeader idx d, "Instructions:"]
    ++ (if instr = [] then ["- (none)"] else bulletList instr)
    ++ ["Success criteria:"]
    ++ (if crit = [] then ["- (none)"] else bulletList crit)
    ++ [""]

/-- The parts pushed by the `drills.forEach` loop, with the running index. -/
def drillsParts : ℕ → List CoachDrill → List String
  | _, [] => []
  | i, d :: ds => drillParts i d ++ drillsParts (i + 1) ds

/-- The parts pushed for the evidence block: a single combined part when the
list (`plan?.summary?.evidence || []`) is empty, else a heading followed by
one bullet per item. -/
def evidenceParts (plan : CoachResponse) : List String :=
  let ev := ((plan.summary).bind CoachSummary.evidence).getD []
  if ev = [] then ["\nEvidence:\n- (none)"]
  else "\nEvidence:" :: bulletList ev

/-- The parts pushed for the trailing disclaimer: present only when
`plan?.disclaimer` is truthy. -/
def disclaimerParts (plan : CoachResponse) : List String :=
  if jsTruthyStr plan.disclaimer then ["Disclaimer:", (plan.disclaimer).getD ""]
  else []

/-- The title and summary parts pushed before the evidence block. -/
def headerParts (plan : CoachResponse) : List String :=
  ["Guitar AI Coach Report",
    "======================\n",
    "Summary",
    "-------",
    "Primary issue: " ++ ((plan.summary).bind CoachSummary.primary_issue).getD "N/A",
    "Confidence: " ++ ((plan.summary).bind CoachSummary.confidence).getD "N/A"]

/-- The parts between the evidence block and the drills. -/
def midParts (plan : CoachResponse) : List String :=
  ["",
    "Practice Plan (Total: " ++ renderOptIntNA plan.total_minutes ++ " minutes)",
    "----------------------------------------------"]

/-- The full `parts` array of `formatCoachReport`, in push order. -/
def partsOf (plan : CoachResponse) : List String :=
  headerParts plan
  ++ evidenceParts plan
  ++ midParts plan
  ++ drillsParts 0 (((plan.drills).getD []).take 3)
  ++ disclaimerParts plan

/-- The whitespace class used by JavaScript `String.prototype.trimEnd`
(restricted to the characters that can occur here). -/
def jsWhitespace (c : Char) : Bool :=
  c == ' ' || c == '\t' || c == '\n' || c == '\r' || c == '\x0b' || c == '\x0c'

/-- `trimEnd` on the underlying character list. -/
def trimEndData (l : List Char) : List Char :=
  (l.reverse.dropWhile jsWhitespace).reverse

/-- JavaScript `String.prototype.trimEnd`. -/
def jsTrimEnd (s : String) : String := ⟨trimEndData s.data⟩

/-- JavaScript `Array.prototype.join("\n")`. -/
def joinNl : List String → String
  | [] => ""
  | [p] => p
  | p :: ps => p ++ "\n" ++ joinNl ps

/-- `formatCoachReport`: `parts.join("\n").trimEnd() + "\n"`. -/
def formatCoachReport (plan : CoachResponse) : String :=
  jsTrimEnd (joinNl (partsOf plan)) ++ "\n"

/-! ### Helper lemmas about `joinNl` and `trimEndData` -/

theorem joinNl_cons_data (x : String) (ps : List String) (h : ps ≠ []) :
    (joinNl (x :: ps)).data = x.data ++ '\n' :: (joinNl ps).data := by
  cases ps with
  | nil => exact absurd rfl h
  | cons y ys => simp [joinNl, String.data_append]

theorem joinNl_append_data (xs ys : List String) (hx : xs ≠ []) (hy : ys ≠ []) :
    (joinNl (xs ++ ys)).data = (joinNl xs).data ++ '\n' :: (joinNl ys).data := by
  induction xs with
  | nil => exact absurd rfl hx
  | cons x xs ih =>
    cases xs with
    | nil =>
      rw [List.nil_append] at *
      rw [List.cons_append, List.nil_append, joinNl_cons_data x ys hy]
      rfl
    | cons x' xs' =>
      rw [List.cons_append,
        joinNl_cons_data x ((x' :: xs') ++ ys) (by simp),
        joinNl_cons_data x (x' :: xs') (by simp),
        ih (by simp)]
      simp

theorem trimEndData_append (a b : List Char) :
    trimEndData (a ++ b)
      = if b.all jsWhitespace then trimEndData a else a ++ trimEndData b := by
  by_cases hb : b.all jsWhitespace
  · rw [if_pos hb]
    unfold trimEndData
    rw [List.reverse_append, List.dropWhile_append_of_pos
      (fun x hx => (List.all_eq_true.mp hb) x (List.mem_reverse.mp hx))]
  · rw [if_neg hb]
    unfold trimEndData
    have h1 : b.reverse.dropWhile jsWhitespace ≠ [] := by
      rw [Ne, List.dropWhile_eq_nil_iff]
      intro hall
      exact hb (List.all_eq_true.mpr fun x hx => hall x (List.mem_reverse.mpr hx))
    rw [List.reverse_append, List.dropWhile_append, if_neg (by simpa using h1),
      List.reverse_append, List.reverse_reverse]

theorem trimEndData_of_getLast (l : List Char) (c : Char)
    (h : l.getLast? = some c) (hc : jsWhitespace c = false) :
    trimEndData l = l := by
  unfold trimEndData
  rw [← List.head?_reverse] at h
  cases hrev : l.reverse with
  | nil => rw [hrev] at h; simp at h
  | cons a as =>
    rw [hrev] at h
    simp only [List.head?_cons, Option.some_inj] at h
    subst h
    rw [List.dropWhile_cons_of_neg (by simp [hc]), ← hrev, List.reverse_reverse]

theorem trimEndData_getLast_not_ws (l : List Char) (c : Char)
    (h : (trimEndData l).getLast? = some c) : jsWhitespace c = false := by
  unfold trimEndData at h
  rw [List.getLast?_reverse] at h
  have hne : l.reverse.dropWhile jsWhitespace ≠ [] := by
    intro hnil
    rw [hnil] at h
    simp at h
  have hh := List.head_dropWhile_not jsWhitespace l.reverse hne
  rw [List.head?_eq_head hne, Option.some_inj] at h
  rw [← h]
  exact hh

theorem joinNl_mid_decomp (xs ys zs : List String) (hx : xs ≠ []) (hy : ys ≠ []) :
    ∃ pre post, (joinNl (xs ++ (ys ++ zs))).data
      = pre ++ ('\n' :: (joinNl ys).data) ++ post ∧
        (post = [] ∨ ∃ r, post = '\n' :: r) := by
  cases hz : zs with
  | nil =>
    refine ⟨(joinNl xs).data, [], ?_, Or.inl rfl⟩
    rw [List.append_nil, joinNl_append_data xs ys hx hy]
    simp
  | cons z zs' =>
    refine ⟨(joinNl xs).data, '\n' :: (joinNl (z :: zs')).data, ?_, Or.inr ⟨_, rfl⟩⟩
    rw [joinNl_append_data xs (ys ++ z :: zs') hx (by simp),
      joinNl_append_data ys (z :: zs') hy (by simp)]
    simp

/-- If a list of characters decomposes as `a ++ core ++ rest` with `core`
ending in a non-whitespace character and `rest` empty or starting at a line
boundary, then `core` followed by a newline survives `trimEnd` + `"\n"` as a
contiguous segment. -/
theorem pattern_preserved (a core rest : List Char) (c : Char)
    (hlast : core.getLast? = some c) (hc : jsWhitespace c = false)
    (hrest : rest = [] ∨ ∃ r, rest = '\n' :: r) :
    ∃ s t, s ++ (core ++ ['\n']) ++ t = trimEndData (a ++ core ++ rest) ++ ['\n'] := by
  rw [trimEndData_append (a ++ core) rest]
  by_cases hr : rest.all jsWhitespace
  · rw [if_pos hr, trimEndData_append a core]
    have hmem : c ∈ core := by
      cases hcore : core with
      | nil => rw [hcore] at hlast; simp at hlast
      | cons x l =>
        rw [← hcore]
        rw [List.getLast?_eq_getLast core (by simp [hcore]), Option.some_inj] at hlast
        rw [← hlast]
        exact List.getLast_mem _
    have hcall : ¬ core.all jsWhitespace := by
      intro hall
      rw [List.all_eq_true.mp hall c hmem] at hc
      exact Bool.true_eq_false.mp hc
    rw [if_neg hcall, trimEndData_of_getLast core c hlast hc]
    exact ⟨a, [], by simp⟩
  · rw [if_neg hr]
    rcases hrest with hnil | ⟨r, hrr⟩
    · rw [hnil] at hr
      simp at hr
    · subst hrr
      have hrall : ¬ r.all jsWhitespace := by
        intro h'
        exact hr (by simp [List.all_cons, h', jsWhitespace])
      have hstep : trimEndData ('\n' :: r) = '\n' :: trimEndData r := by
        have h2 := trimEndData_append ['\n'] r
        rw [if_neg hrall] at h2
        simpa using h2
      rw [hstep]
      refine ⟨a, trimEndData r ++ ['\n'], ?_⟩
      simp

/-- The report string is `trimEnd(join) ++ "\n"` at the character level. -/
theorem formatCoachReport_data (plan : CoachResponse) :
    (formatCoachReport plan).data
      = trimEndData (joinNl (partsOf plan)).data ++ ['\n'] := by
  rw [formatCoachReport, String.data_append]
  rfl

theorem formatCoachReport_trailing (plan : CoachResponse) :
    (formatCoachReport plan).data.getLast? = some '\n' ∧
      (formatCoachReport plan).data.dropLast.getLast? ≠ some '\n' := by
  rw [formatCoachReport_data]
  constructor
  · rw [List.getLast?_concat]
  · rw [List.dropLast_concat]
    intro hcon
    have h := trimEndData_getLast_not_ws (joinNl (partsOf plan)).data '\n' hcon
    exact absurd h (by decide)

theorem drillsParts_decomp (i : ℕ) :
    ∀ (j : ℕ) (ds : List CoachDrill) (h : i < ds.length),
      ∃ pre post,
        drillsParts j ds = pre ++ drillParts (j + i) (ds.get ⟨i, h⟩) ++ post := by
  induction i with
  | zero =>
    intro j ds h
    cases ds with
    | nil => simp at h
    | cons d ds =>
      exact ⟨[], drillsParts (j + 1) ds, by simp [drillsParts]⟩
  | succ i ih =>
    intro j ds h
    cases ds with
    | nil => simp at h
    | cons d ds =>
      obtain ⟨pre, post, hp⟩ := ih (j + 1) ds (by simpa using h)
      refine ⟨drillParts j d ++ pre, post, ?_⟩
      have hidx : j + 1 + i = j + (i + 1) := by omega
      rw [drillsParts, hp, hidx]
      simp [List.append_assoc]

/-- C4: for every plan the report ends with exactly one trailing newline
character; and when the evidence list is empty and every rendered drill has
empty instruction and success-criteria lists, the literal line `- (none)`
is rendered under the `Evidence:` heading and under each rendered drill's
`Instructions:` and `Success criteria:` headings (stated as contiguous
segments of the report, delimited by newlines). -/
theorem report_none_placeholders_and_newline :
    ∀ plan : CoachResponse,
      ((formatCoachReport plan).data.getLast? = some '\n' ∧
        (formatCoachReport plan).data.dropLast.getLast? ≠ some '\n') ∧
      (((plan.summary).bind CoachSummary.evidence).getD [] = [] →
        (∀ d ∈ ((plan.drills).getD []).take 3,
          (d.instructions).getD [] = [] ∧ (d.success_criteria).getD [] = []) →
        (∃ s t, s ++ ("\nEvidence:\n- (none)\n").data ++ t
            = (formatCoachReport plan).data) ∧
        (∀ (i : ℕ) (h : i < (((plan.drills).getD []).take 3).length),
          ∃ s t,
            s ++ (drillHeader i ((((plan.drills).getD []).take 3).get ⟨i, h⟩)
                ++ "\nInstructions:\n- (none)\nSuccess criteria:\n- (none)\n").data ++ t
              = (formatCoachReport plan).data)) := by
  intro plan
  refine ⟨formatCoachReport_trailing plan, fun hEv hDr => ⟨?_, ?_⟩⟩
  · -- Evidence placeholder
    have hEvP : evidenceParts plan = ["\nEvidence:\n- (none)"] := by
      simp [evidenceParts, hEv]
    have hform : partsOf plan
        = headerParts plan ++ (["\nEvidence:\n- (none)"]
            ++ (midParts plan ++ (drillsParts 0 (((plan.drills).getD []).take 3)
              ++ disclaimerParts plan))) := by
      rw [partsOf, hEvP]
      simp [List.append_assoc]
    obtain ⟨pre, post, hJ, hpost⟩ := joinNl_mid_decomp (headerParts plan)
      ["\nEvidence:\n- (none)"]
      (midParts plan ++ (drillsParts 0 (((plan.drills).getD []).take 3)
        ++ disclaimerParts plan))
      (by simp [headerParts]) (by simp)
    rw [← hform] at hJ
    have hJ2 : (joinNl (partsOf plan)).data
        = (pre ++ ['\n']) ++ ("\nEvidence:\n- (none)").data ++ post := by
      rw [hJ]
      simp [joinNl, List.append_assoc]
    obtain ⟨s, t, hst⟩ := pattern_preserved (pre ++ ['\n'])
      ("\nEvidence:\n- (none)").data post ')' (by decide) (by decide) hpost
    refine ⟨s, t, ?_⟩
    have hpat : ("\nEvidence:\n- (none)\n").data
        = ("\nEvidence:\n- (none)").data ++ ['\n'] := by decide
    rw [hpat, formatCoachReport_data, hJ2]
    exact hst
  · -- Per-drill placeholders
    intro i h
    obtain ⟨dpre, dpost, hdp⟩ :=
      drillsParts_decomp i 0 (((plan.drills).getD []).take 3) h
    rw [Nat.zero_add] at hdp
    obtain ⟨hinstr, hcrit⟩ :=
      hDr ((((plan.drills).getD []).take 3).get ⟨i, h⟩) (List.get_mem _ _ _)
    have hdparts : drillParts i ((((plan.drills).getD []).take 3).get ⟨i, h⟩)
        = [drillHeader i ((((plan.drills).getD []).take 3).get ⟨i, h⟩),
            "Instructions:", "- (none)", "Success criteria:", "- (none)", ""] := by
      simp only [drillParts]
      rw [hinstr, hcrit]
      rfl
    have hform : partsOf plan
        = (headerParts plan ++ evidenceParts plan ++ midParts plan ++ dpre)
          ++ (drillParts i ((((plan.drills).getD []).take 3).get ⟨i, h⟩)
            ++ (dpost ++ disclaimerParts plan)) := by
      rw [partsOf, hdp]
      simp [List.append_assoc]
    obtain ⟨pre, post, hJ, hpost⟩ := joinNl_mid_decomp
      (headerParts plan ++ evidenceParts plan ++ midParts plan ++ dpre)
      (drillParts i ((((plan.drills).getD []).take 3).get ⟨i, h⟩))
      (dpost ++ disclaimerParts plan)
      (by simp [headerParts]) (by rw [hdparts]; simp)
    rw [← hform] at hJ
    have hone : (joinNl (drillParts i ((((plan.drills).getD []).take 3).get ⟨i, h⟩))).data
        = (drillHeader i ((((plan.drills).getD []).take 3).get ⟨i, h⟩)).data
          ++ (("\nInstructions:\n- (none)\nSuccess criteria:\n- (none)").data ++ ['\n']) := by
      rw [hdparts, joinNl_cons_data _ _ (by simp)]
      congr 1
    have hJ2 : (joinNl (partsOf plan)).data
        = (pre ++ ['\n'])
          ++ ((drillHeader i ((((plan.drills).getD []).take 3).get ⟨i, h⟩)).data
            ++ ("\nInstructions:\n- (none)\nSuccess criteria:\n- (none)").data)
          ++ ('\n' :: post) := by
      rw [hJ, hone]
      simp [List.append_assoc]
    obtain ⟨s, t, hst⟩ := pattern_preserved (pre ++ ['\n'])
      ((drillHeader i ((((plan.drills).getD []).take 3).get ⟨i, h⟩)).data
        ++ ("\nInstructions:\n- (none)\nSuccess criteria:\n- (none)").data)
      ('\n' :: post) ')'
      (by
        rw [List.getLast?_append_of_ne_nil _
          (by decide : ("\nInstructions:\n- (none)\nSuccess criteria:\n- (none)").data ≠ [])]
        decide)
      (by decide) (Or.inr ⟨post, rfl⟩)
    refine ⟨s, t, ?_⟩
    have hpat : (drillHeader i ((((plan.drills).getD []).take 3).get ⟨i, h⟩)
          ++ "\nInstructions:\n- (none)\nSuccess criteria:\n- (none)\n").data
        = ((drillHeader i ((((plan.drills).getD []).take 3).get ⟨i, h⟩)).data
            ++ ("\nInstructions:\n- (none)\nSuccess criteria:\n- (none)").data) ++ ['\n'] := by
      rw [String.data_append]
      have hlit : ("\nInstructions:\n- (none)\nSuccess criteria:\n- (none)\n").data
          = ("\nInstructions:\n- (none)\nSuccess criteria:\n- (none)").data ++ ['\n'] := by
        decide
      rw [hlit, List.append_assoc]
    rw [hpat, formatCoachReport_data, hJ2]
    exact hst

/-- A sample drill with empty instruction and success-criteria lists. -/
def sampleDrill : CoachDrill :=
  ⟨some "Metronome quarters", some 10, none, some 80, some [], some []⟩

/-- A sample plan with empty evidence and one sample drill. -/
def samplePlan : CoachResponse :=
  ⟨some ⟨some "Timing", some [], some "high"⟩, some [sampleDrill], some 25, none⟩

/-- C4 witness: the sample plan's report carries the `- (none)` placeholder
lines and ends with exactly one newline. -/
theorem report_none_placeholders_and_newline_witness :
    ((samplePlan.summary).bind CoachSummary.evidence).getD [] = [] ∧
    ((formatCoachReport samplePlan).data.getLast? = some '\n' ∧
      (formatCoachReport samplePlan).data.dropLast.getLast? ≠ some '\n') ∧
    (∃ s t, s ++ ("\nEvidence:\n- (none)\n").data ++ t
        = (formatCoachReport samplePlan).data) ∧
    (∃ s t,
      s ++ (drillHeader 0 ((((samplePlan.drills).getD []).take 3).get ⟨0, by decide⟩)
          ++ "\nInstructions:\n- (none)\nSuccess criteria:\n- (none)\n").data ++ t
        = (formatCoachReport samplePlan).data) :=
  ⟨by decide,
    (report_none_placeholders_and_newline samplePlan).1,
    ((report_none_placeholders_and_newline samplePlan).2 (by decide) (by decide)).1,
    ((report_none_placeholders_and_newline samplePlan).2 (by decide) (by decide)).2
      0 (by decide)⟩

/-- C9: the report is unchanged when the drill list is truncated to its first
three entries — the practice-plan section renders exactly the first three
drills, in order, and no content of any later drill; the truncated list has
exactly three drills. -/
theorem report_uses_first_three_drills :
    ∀ plan : CoachResponse, 3 < ((plan.drills).getD []).length →
      formatCoachReport plan
        = formatCoachReport
            { plan with drills := some (((plan.drills).getD []).take 3) } ∧
      (((plan.drills).getD []).take 3).length = 3 := by
  intro plan h
  constructor
  · unfold formatCoachReport partsOf headerParts midParts evidenceParts disclaimerParts
    simp [List.take_take]
  · rw [List.length_take]
    omega

/-- A plan with four drills. -/
def fourDrillPlan : CoachResponse :=
  ⟨some ⟨some "Timing", some ["late hits"], some "medium"⟩,
    some [⟨some "A", some 5, none, none, some ["slow"], some ["clean"]⟩,
      ⟨some "B", some 5, none, some 60, some [], some []⟩,
      ⟨some "C", none, some 7, none, some ["loop bar 2"], some []⟩,
      ⟨some "D", some 9, none, some 120, some ["burst"], some ["no flams"]⟩],
    some 30, some "Stop if pain."⟩

/-- C9 witness at the four-drill plan. -/
theorem report_uses_first_three_drills_witness :
    formatCoachReport fourDrillPlan
      = formatCoachReport
          { fourDrillPlan with
            drills := some (((fourDrillPlan.drills).getD []).take 3) } ∧
    (((fourDrillPlan.drills).getD []).take 3).length = 3 :=
  report_uses_first_three_drills fourDrillPlan (by decide)

/-! ### Helpers for locating the Disclaimer heading -/

theorem str_append_take2 (p x : String) (hp : 2 ≤ p.data.length) :
    (p ++ x).data.take 2 = p.data.take 2 := by
  rw [String.data_append, List.take_append_of_le_length hp]

theorem str_append_ne_of_take2 (p x q : String) (hp : 2 ≤ p.data.length)
    (h2 : p.data.take 2 ≠ q.data.take 2) : p ++ x ≠ q := by
  intro he
  apply h2
  have hdata : (p ++ x).data = q.data := congrArg String.data he
  rw [String.data_append] at hdata
  rw [← hdata, List.take_append_of_le_length hp]

theorem drillHeader_take2 (j : ℕ) (d : CoachDrill) :
    (drillHeader j d).data.take 2 = ['D', 'r'] := by
  have h : drillHeader j d
      = "Drill " ++ (toString (j + 1) ++ (": " ++ (drillName d ++ (" ("
          ++ (drillMinutesStr d ++ (" min" ++ (drillTempoSegment d ++ ")"))))))) := by
    simp [drillHeader, String.append_assoc]
  rw [h, str_append_take2 _ _ (by decide)]
  decide

theorem bullets_take2 (l : List String) (s : String)
    (hs : s ∈ (if l = [] then ["- (none)"] else bulletList l)) :
    s.data.take 2 = ['-', ' '] := by
  split at hs
  · simp at hs
    subst hs
    decide
  · simp only [bulletList] at hs
    obtain ⟨e, _, he⟩ := List.mem_map.mp hs
    rw [← he, str_append_take2 "- " e (by decide)]
    decide

theorem not_disclaimer_of_mem_drillParts (j : ℕ) (d : CoachDrill) (s : String)
    (hs : s ∈ drillParts j d) : s.data.take 2 ≠ ['D', 'i'] := by
  simp only [drillParts, List.append_assoc, List.cons_append, List.nil_append,
    List.mem_cons, List.mem_append, List.mem_singleton] at hs
  rcases hs with h | h | h | h
  · rw [h, drillHeader_take2]
    decide
  · rw [h]
    decide
  · rw [bullets_take2 _ _ h]
    decide
  · rcases h with h | h
    · rw [h]
      decide
    · rcases h with h | h
      · rw [bullets_take2 _ _ h]
        decide
      · rcases h with h | h
        · rw [h]
          decide
        · simp at h

theorem disclaimer_not_mem_drillsParts :
    ∀ (ds : List CoachDrill) (j : ℕ), "Disclaimer:" ∉ drillsParts j ds := by
  intro ds
  induction ds with
  | nil => intro j; simp [drillsParts]
  | cons d ds ih =>
    intro j
    simp only [drillsParts, List.mem_append, not_or]
    exact ⟨fun hmem => not_disclaimer_of_mem_drillParts j d _ hmem (by decide),
      ih (j + 1)⟩

theorem disclaimer_not_mem_headerParts (plan : CoachResponse) :
    "Disclaimer:" ∉ headerParts plan := by
  intro hmem
  simp only [headerParts, List.mem_cons, List.mem_singleton] at hmem
  rcases hmem with h | h | h | h | h | h
  · exact absurd h (by decide)
  · exact absurd h (by decide)
  · exact absurd h (by decide)
  · exact absurd h (by decide)
  · exact str_append_ne_of_take2 "Primary issue: " _ "Disclaimer:"
      (by decide) (by decide) h.symm
  · rcases h with h | h
    · exact str_append_ne_of_take2 "Confidence: " _ "Disclaimer:"
        (by decide) (by decide) h.symm
    · simp at h

theorem disclaimer_not_mem_evidenceParts (plan : CoachResponse) :
    "Disclaimer:" ∉ evidenceParts plan := by
  intro hmem
  simp only [evidenceParts] at hmem
  split at hmem
  · simp only [List.mem_singleton] at hmem
    exact absurd hmem (by decide)
  · simp only [List.mem_cons] at hmem
    rcases hmem with h | h
    · exact absurd h (by decide)
    · simp only [bulletList] at h
      obtain ⟨e, _, he⟩ := List.mem_map.mp h
      exact str_append_ne_of_take2 "- " e "Disclaimer:" (by decide) (by decide) he

theorem disclaimer_not_mem_midParts (plan : CoachResponse) :
    "Disclaimer:" ∉ midParts plan := by
  intro hmem
  simp only [midParts, List.mem_cons, List.mem_singleton] at hmem
  rcases hmem with h | h | h
  · exact absurd h (by decide)
  · exact str_append_ne_of_take2 "Practice Plan (Total: " _ "Disclaimer:"
      (by decide) (by decide) h.symm
  · rcases h with h | h
    · exact absurd h (by decide)
    · simp at h

/-- C5 (amended): formatting is a pure total function of the plan; the
optional primary issue, confidence and total minutes always render with the
"N/A" fallback inside their fixed lines, absent drill minutes render
"(unspecified)"; but — contrary to the claim — two optional fields do NOT
render placeholders: an absent drill tempo omits the tempo segment entirely,
and the Disclaimer block is omitted (heading included) exactly when the
disclaimer is absent or empty, so the set of lines depends on disclaimer
presence. -/
theorem optional_fields_render_stable :
    (∀ plan : CoachResponse,
      ("Primary issue: " ++ ((plan.summary).bind CoachSummary.primary_issue).getD "N/A")
        ∈ partsOf plan ∧
      ("Confidence: " ++ ((plan.summary).bind CoachSummary.confidence).getD "N/A")
        ∈ partsOf plan ∧
      ("Practice Plan (Total: " ++ renderOptIntNA plan.total_minutes ++ " minutes)")
        ∈ partsOf plan ∧
      (("Disclaimer:" ∈ partsOf plan) ↔ jsTruthyStr plan.disclaimer = true)) ∧
    (∀ d : CoachDrill, d.duration_min = none → d.minutes = none →
      drillMinutesStr d = "(unspecified)") ∧
    (∀ d : CoachDrill, d.tempo_bpm = none → drillTempoSegment d = "") ∧
    (∀ (d : CoachDrill) (t : ℤ), d.tempo_bpm = some t →
      drillTempoSegment d = ", " ++ toString t ++ " bpm") := by
  refine ⟨fun plan => ⟨?_, ?_, ?_, ?_, ?_⟩,
    fun d h1 h2 => by simp [drillMinutesStr, h1, h2],
    fun d h => by simp [drillTempoSegment, h],
    fun d t h => by simp [drillTempoSegment, h]⟩
  · simp [partsOf, headerParts]
  · simp [partsOf, headerParts]
  · simp [partsOf, midParts]
  · intro hmem
    by_contra hfalse
    simp only [Bool.not_eq_true] at hfalse
    have hd : disclaimerParts plan = [] := by simp [disclaimerParts, hfalse]
    rw [partsOf, hd, List.append_nil] at hmem
    rcases List.mem_append.mp hmem with h | h
    · rcases List.mem_append.mp h with h' | h'
      · rcases List.mem_append.mp h' with h'' | h''
        · exact disclaimer_not_mem_headerParts plan h''
        · exact disclaimer_not_mem_evidenceParts plan h''
      · exact disclaimer_not_mem_midParts plan h'
    · exact disclaimer_not_mem_drillsParts _ 0 h
  · intro htrue
    simp [partsOf, disclaimerParts, htrue]

/-- C5 amended-claim witness: instantiations at the sample plan and at drills
with absent minutes and absent/present tempo. -/
theorem optional_fields_render_stable_witness :
    ("Primary issue: "
        ++ ((samplePlan.summary).bind CoachSummary.primary_issue).getD "N/A")
      ∈ partsOf samplePlan ∧
    (("Disclaimer:" ∈ partsOf samplePlan) ↔ jsTruthyStr samplePlan.disclaimer = true) ∧
    drillMinutesStr ⟨some "X", none, none, none, none, none⟩ = "(unspecified)" ∧
    drillTempoSegment ⟨some "X", none, none, none, none, none⟩ = "" ∧
    drillTempoSegment ⟨some "X", none, none, some 80, none, none⟩
      = ", " ++ toString (80 : ℤ) ++ " bpm" :=
  ⟨(optional_fields_render_stable.1 samplePlan).1,
    (optional_fields_render_stable.1 samplePlan).2.2.2,
    optional_fields_render_stable.2.1 ⟨some "X", none, none, none, none, none⟩ rfl rfl,
    optional_fields_render_stable.2.2.1 ⟨some "X", none, none, none, none, none⟩ rfl,
    optional_fields_render_stable.2.2.2 ⟨some "X", none, none, some 80, none, none⟩ 80 rfl⟩

/-- A plan identical to `planWithDisclaimer` except for the absent disclaimer. -/
def planNoDisclaimer : CoachResponse :=
  ⟨some ⟨some "Timing", some ["late hits"], some "medium"⟩,
    some [sampleDrill], some 30, none⟩

def planWithDisclaimer : CoachResponse :=
  { planNoDisclaimer with disclaimer := some "Not medical advice." }

set_option maxRecDepth 40000 in
/-- C5 counterexample: two plans differing only in the optional disclaimer
field produce reports with different line sets — the plan without a
disclaimer renders no "Disclaimer:" line and no placeholder for it, so the
field's absence omits the line rather than rendering a placeholder. -/
theorem optional_placeholder_cex :
    planWithDisclaimer
      = { planNoDisclaimer with disclaimer := some "Not medical advice." } ∧
    ("Disclaimer:" ∈ partsOf planWithDisclaimer) ∧
    ("Disclaimer:" ∉ partsOf planNoDisclaimer) ∧
    ("Disclaimer:".data <:+: (formatCoachReport planWithDisclaimer).data) ∧
    ¬ ("Disclaimer:".data <:+: (formatCoachReport planNoDisclaimer).data) :=
  ⟨rfl, by decide, by decide, by decide, by decide⟩

/-! ## HTTP error normalization (`src/frontend/src/services/api.ts`)

`handleResponse` inspects only `parsed?.error_code`, `parsed?.detail`,
`parsed?.detail?.error_code` and the payload fields, so the JSON body is
abstracted to exactly those observations: a body is either unparseable
(empty raw text or `JSON.parse` throwing) or a parsed value with an optional
top-level error payload and an optional `detail` value (absent, a string, or
a nested object). -/

/-- The `error_code`/`user_message` fields of a (possibly partial) payload
object, each possibly absent. -/
structure ErrObj where
  error_code : Option String
  user_message : Option String
deriving DecidableEq, Repr

/-- The `detail` member of the parsed body. -/
inductive DetailVal where
  | absent
  | str (s : String)
  | obj (o : ErrObj)
deriving DecidableEq, Repr

/-- The parsed JSON body, as observed by `handleResponse`. -/
inductive BodyVal where
  | unparseable
  | parsed (top : ErrObj) (detail : DetailVal)
deriving DecidableEq, Repr

/-- JavaScript truthiness of the `detail` value (an object is always truthy,
a string is truthy when non-empty). -/
def detailTruthy : DetailVal → Bool
  | .absent => false
  | .str s => decide (s ≠ "")
  | .obj _ => true

/-- How `${parsed.detail}` is interpolated into the template literal. -/
def renderDetail : DetailVal → String
  | .absent => ""
  | .str s => s
  | .obj _ => "[object Object]"

/-- `parsed?.error_code ? parsed : parsed?.detail?.error_code ? parsed.detail
: undefined`. -/
def payloadOf (top : ErrObj) (detail : DetailVal) : Option ErrObj :=
  if jsTruthyStr top.error_code then some top
  else
    match detail with
    | .obj o => if jsTruthyStr o.error_code then some o else none
    | _ => none

/-- Outcome of `handleResponse`: the resolved JSON on success, or a thrown
error — `apiFailure` carries the structured payload attached as `apiError`
plus the `Error` message and HTTP status, `httpFailure` only a generic
message. -/
inductive HandleResult where
  | success
  | apiFailure (payload : ErrObj) (message : String) (status : ℕ)
  | httpFailure (message : String)
deriving DecidableEq, Repr

/-- `handleResponse` from `api.ts` lines 9–41, as a function of the response
status flag, numeric status, raw body text and its parse observation. -/
def handleResponse (ok : Bool) (status : ℕ) (raw : String) (body : BodyVal) :
    HandleResult :=
  if ok then .success
  else
    match body with
    | .unparseable =>
      .httpFailure ("HTTP " ++ toString status ++ ": "
        ++ (if raw ≠ "" then raw else "Request failed"))
    | .parsed top detail =>
      match payloadOf top detail with
      | some p =>
        .apiFailure p
          (if jsTruthyStr p.user_message then (p.user_message).getD ""
            else "Request failed")
          status
      | none =>
        if detailTruthy detail then
          .httpFailure ("HTTP " ++ toString status ++ ": " ++ renderDetail detail)
        else
          .httpFailure ("HTTP " ++ toString status ++ ": "
            ++ (if raw ≠ "" then raw else "Request failed"))

/-- C3 (amended): on a non-success response whose body carries a JS-truthy
(non-empty) `error_code` — nested under `detail` or directly top-level — the
client throws an error carrying that exact payload (hence its `user_message`
and `error_code`) and the status, with the error message equal to the
payload's `user_message` whenever that is non-empty; and a generic
`HTTP <status>: ...` message is thrown only when the body is unparseable or
no truthy-`error_code` payload is present. -/
theorem error_normalization :
    (∀ (status : ℕ) (raw : String) (top o : ErrObj),
      jsTruthyStr top.error_code = false → jsTruthyStr o.error_code = true →
      (∃ msg, handleResponse false status raw (BodyVal.parsed top (DetailVal.obj o))
          = HandleResult.apiFailure o msg status) ∧
      (∀ m : String, o.user_message = some m → m ≠ "" →
        handleResponse false status raw (BodyVal.parsed top (DetailVal.obj o))
          = HandleResult.apiFailure o m status)) ∧
    (∀ (status : ℕ) (raw : String) (top : ErrObj) (detail : DetailVal),
      jsTruthyStr top.error_code = true →
      (∃ msg, handleResponse false status raw (BodyVal.parsed top detail)
          = HandleResult.apiFailure top msg status) ∧
      (∀ m : String, top.user_message = some m → m ≠ "" →
        handleResponse false status raw (BodyVal.parsed top detail)
          = HandleResult.apiFailure top m status)) ∧
    (∀ (status : ℕ) (raw : String) (body : BodyVal) (msg : String),
      handleResponse false status raw body = HandleResult.httpFailure msg →
      ((body = BodyVal.unparseable ∨
          ∃ top detail, body = BodyVal.parsed top detail
            ∧ payloadOf top detail = none) ∧
        ∃ rest, msg = "HTTP " ++ toString status ++ ": " ++ rest)) := by
  have hparsed : ∀ (status : ℕ) (raw : String) (top : ErrObj) (detail : DetailVal),
      handleResponse false status raw (BodyVal.parsed top detail)
        = match payloadOf top detail with
          | some p =>
            HandleResult.apiFailure p
              (if jsTruthyStr p.user_message then (p.user_message).getD ""
                else "Request failed") status
          | none =>
            if detailTruthy detail then
              HandleResult.httpFailure
                ("HTTP " ++ toString status ++ ": " ++ renderDetail detail)
            else
              HandleResult.httpFailure ("HTTP " ++ toString status ++ ": "
                ++ (if raw ≠ "" then raw else "Request failed")) :=
    fun _ _ _ _ => rfl
  refine ⟨fun status raw top o h1 h2 => ?_,
    fun status raw top detail h1 => ?_,
    fun status raw body msg h => ?_⟩
  · have hpay : payloadOf top (DetailVal.obj o) = some o := by
      simp [payloadOf, h1, h2]
    refine ⟨⟨if jsTruthyStr o.user_message = true then (o.user_message).getD ""
        else "Request failed", ?_⟩, fun m hm hne => ?_⟩
    · rw [hparsed, hpay]
    · rw [hparsed, hpay]
      show HandleResult.apiFailure o
          (if jsTruthyStr o.user_message = true then (o.user_message).getD ""
            else "Request failed") status
        = HandleResult.apiFailure o m status
      rw [hm]
      simp [jsTruthyStr, hne]
  · have hpay : payloadOf top detail = some top := by
      simp [payloadOf, h1]
    refine ⟨⟨if jsTruthyStr top.user_message = true then (top.user_message).getD ""
        else "Request failed", ?_⟩, fun m hm hne => ?_⟩
    · rw [hparsed, hpay]
    · rw [hparsed, hpay]
      show HandleResult.apiFailure top
          (if jsTruthyStr top.user_message = true then (top.user_message).getD ""
            else "Request failed") status
        = HandleResult.apiFailure top m status
      rw [hm]
      simp [jsTruthyStr, hne]
  · cases body with
    | unparseable =>
      refine ⟨Or.inl rfl, ?_⟩
      have h' : HandleResult.httpFailure ("HTTP " ++ toString status ++ ": "
          ++ (if raw ≠ "" then raw else "Request failed"))
          = HandleResult.httpFailure msg := h
      exact ⟨if raw ≠ "" then raw else "Request failed",
        ((HandleResult.httpFailure.injEq _ _).mp h').symm⟩
    | parsed top detail =>
      cases hp : payloadOf top detail with
      | some p =>
        rw [hparsed, hp] at h
        simp at h
      | none =>
        refine ⟨Or.inr ⟨top, detail, rfl, hp⟩, ?_⟩
        rw [hparsed, hp] at h
        have h' : (if detailTruthy detail then
              HandleResult.httpFailure
                ("HTTP " ++ toString status ++ ": " ++ renderDetail detail)
            else
              HandleResult.httpFailure ("HTTP " ++ toString status ++ ": "
                ++ (if raw ≠ "" then raw else "Request failed")))
            = HandleResult.httpFailure msg := h
        by_cases hdt : detailTruthy detail
        · rw [if_pos hdt] at h'
          exact ⟨renderDetail detail,
            ((HandleResult.httpFailure.injEq _ _).mp h').symm⟩
        · rw [if_neg hdt] at h'
          exact ⟨if raw ≠ "" then raw else "Request failed",
            ((HandleResult.httpFailure.injEq _ _).mp h').symm⟩

/-- C3 amended-claim witness: the spec's example (status 422, `BAD_AUDIO`,
"Clip too quiet" nested under `detail`) surfaces the exact payload and
message; a top-level payload likewise; an unparseable body falls back to the
generic message. -/
theorem error_normalization_witness :
    handleResponse false 422 "raw"
        (BodyVal.parsed ⟨none, none⟩
          (DetailVal.obj ⟨some "BAD_AUDIO", some "Clip too quiet"⟩))
      = HandleResult.apiFailure ⟨some "BAD_AUDIO", some "Clip too quiet"⟩
          "Clip too quiet" 422 ∧
    handleResponse false 500 ""
        (BodyVal.parsed ⟨some "SERVER_DOWN", some "Try later"⟩ DetailVal.absent)
      = HandleResult.apiFailure ⟨some "SERVER_DOWN", some "Try later"⟩
          "Try later" 500 ∧
    (BodyVal.unparseable = BodyVal.unparseable ∨
      ∃ top detail, BodyVal.unparseable = BodyVal.parsed top detail
        ∧ payloadOf top detail = none) ∧
    (∃ rest, "HTTP 503: oops" = "HTTP " ++ toString 503 ++ ": " ++ rest) :=
  ⟨(error_normalization.1 422 "raw" ⟨none, none⟩
      ⟨some "BAD_AUDIO", some "Clip too quiet"⟩ (by decide) (by decide)).2
      "Clip too quiet" rfl (by decide),
    (error_normalization.2.1 500 "" ⟨some "SERVER_DOWN", some "Try later"⟩
      DetailVal.absent (by decide)).2 "Try later" rfl (by decide),
    (error_normalization.2.2 503 "oops" BodyVal.unparseable "HTTP 503: oops"
      (by decide)).1,
    (error_normalization.2.2 503 "oops" BodyVal.unparseable "HTTP 503: oops"
      (by decide)).2⟩

/-- C3 counterexample: a 422 response whose body has the claimed shape
(`detail` bearing `error_code` and `user_message` members) but with an empty
`error_code` string is NOT surfaced as a structured error carrying the
user message — the code's truthiness test skips it and falls back to the
generic `HTTP 422: [object Object]` message. -/
theorem error_normalization_cex :
    handleResponse false 422 "x"
        (BodyVal.parsed ⟨none, none⟩ (DetailVal.obj ⟨some "", some "Clip too quiet"⟩))
      = HandleResult.httpFailure "HTTP 422: [object Object]" ∧
    handleResponse false 422 "x"
        (BodyVal.parsed ⟨none, none⟩ (DetailVal.obj ⟨some "", some "Clip too quiet"⟩))
      ≠ HandleResult.apiFailure ⟨some "", some "Clip too quiet"⟩
          "Clip too quiet" 422 :=
  ⟨by decide, by decide⟩

/-! ## The recorder stop-completion handler (`index.tsx` lines 427–475)

The handler's effects are modelled over the component state it reads and
writes: the once-only flag, the captured chunks (their byte sizes), the
recorder/stream/timer handles (presence booleans), and the validation-related
UI state.  The asynchronous inputs — `Date.now()` at the handler, the duration
probe's outcome for the assembled file, and the fresh preview object URL — are
an explicit environment. -/

inductive VStatus where
  | idle
  | validating
  | valid
  | invalid
deriving DecidableEq, Repr

inductive RecPhase where
  | idle
  | recording
  | processing
deriving DecidableEq, Repr

structure RecorderUI where
  stopHandled : Bool
  chunks : List ℕ
  recorderMime : Option String
  recordingMimeType : Option String
  startMs : ℕ
  timer : Bool
  autoStop : Bool
  stopSafety : Bool
  levelMonitor : Bool
  stream : Bool
  status : VStatus
  error : Option String
  file : Option FileCand
  durationSeconds : Option ℚ
  previewUrl : Option ℕ
  recordingState : RecPhase
  elapsedSeconds : ℕ
deriving DecidableEq, Repr

structure StopEnv where
  now : ℕ
  probe : ProbeOutcome
  freshUrl : ℕ
deriving DecidableEq

/-- JavaScript `s.includes(pat)` on character lists. -/
def containsSeg (pat : List Char) : List Char → Bool
  | [] => pat.isEmpty
  | c :: rest => pat.isPrefixOf (c :: rest) || containsSeg pat rest

/-- JavaScript `String.prototype.includes`. -/
def strIncludes (s pat : String) : Bool := containsSeg pat.data s.data

/-- `mimeTypeToExtension` from `index.tsx` lines 34–40. -/
def mimeTypeToExtension (mime : String) : String :=
  if strIncludes mime "webm" then "webm"
  else if strIncludes mime "mp4" then "mp4"
  else if strIncludes mime "mpeg" || strIncludes mime "mp3" then "mp3"
  else if strIncludes mime "wav" then "wav"
  else "audio"

/-- JavaScript `o || b` for a possibly absent string (absent and `""` falsy). -/
def jsOrOptStr (o : Option String) (b : String) : String :=
  match o with
  | some s => if s ≠ "" then s else b
  | none => b

/-- `mediaRecorderRef.current?.mimeType || recordingMimeType || "audio/webm"`. -/
def chosenMime (recorderMime recordingMimeType : Option String) : String :=
  jsOrOptStr recorderMime (jsOrOptStr recordingMimeType "audio/webm")

/-- The state effects of `await validateAndSetFile(recordedFile)`:
`validating`/cleared error and duration first, then the verdict's effects
(valid: set file, normalized duration, fresh preview URL; invalid: set the
reason). -/
def applyValidate (env : StopEnv) (f : FileCand) (s : RecorderUI) : RecorderUI :=
  let s1 := { s with
    status := VStatus.validating, error := none, durationSeconds := none }
  match validateAndSetFile f env.probe with
  | (.invalid msg, _) => { s1 with status := VStatus.invalid, error := some msg }
  | (.valid n, _) =>
    { s1 with
      file := some f, durationSeconds := some n,
      previewUrl := some env.freshUrl, status := VStatus.valid }

/-- `recorder.onstop` from `index.tsx` lines 427–475. -/
def onstop (env : StopEnv) (s : RecorderUI) : RecorderUI :=
  if s.stopHandled then s
  else
    let s := { s with stopHandled := true }
    -- stopTimer(); clearAutoStopTimeout(); clearStopSafetyTimeout();
    -- stopLevelMonitoring(); stopStream()
    let s := { s with
      timer := false, autoStop := false, stopSafety := false,
      levelMonitor := false, stream := false }
    if s.chunks = [] then
      { s with
        status := VStatus.invalid,
        error := some "Recording failed. No audio data was captured.",
        recordingState := RecPhase.idle, recorderMime := none }
    else
      let measuredElapsed := min MAX_SECONDS ((env.now - s.startMs) / 1000)
      let s := { s with elapsedSeconds := measuredElapsed }
      let mime := chosenMime s.recorderMime s.recordingMimeType
      let extension := mimeTypeToExtension mime
      let recordedFile : FileCand :=
        ⟨"recording." ++ extension, mime, s.chunks.sum⟩
      let s := { s with chunks := [], recorderMime := none }
      if measuredElapsed < MIN_SECONDS then
        let s := applyValidate env recordedFile s
        { s with
          status := VStatus.invalid, file := none, durationSeconds := none,
          previewUrl := none,
          error := some "Recording too short. Please record at least 15 seconds.",
          recordingState := RecPhase.idle }
      else
        let s := applyValidate env recordedFile s
        { s with recordingState := RecPhase.idle }

/-- C8: the stop-completion handler always leaves the once-only flag set, and
invoking it a second time in succession (as when a manual stop and the
automatic timeout both fire) is a no-op — the captured chunks are assembled
and validated exactly once. -/
theorem onstop_once_only :
    ∀ (env : StopEnv) (s : RecorderUI),
      (onstop env s).stopHandled = true ∧
      onstop env (onstop env s) = onstop env s := by
  intro env s
  by_cases h : s.stopHandled = true
  · have he : onstop env s = s := by rw [onstop, if_pos h]
    rw [he, he]
    exact ⟨h, rfl⟩
  · have hflag : (onstop env s).stopHandled = true := by
      rw [onstop, if_neg h]
      dsimp only
      split
      · rfl
      · split
        · dsimp only [applyValidate]
          split
          · rfl
          · rfl
        · dsimp only [applyValidate]
          split
          · rfl
          · rfl
    refine ⟨hflag, ?_⟩
    conv_lhs => rw [onstop]
    rw [if_pos hflag]

/-! ## The clipboard legacy fallback (`src/frontend/src/utils/copyToClipboard.ts`)

The fallback path (modern clipboard API unavailable) is modelled as a function
of the one external event that branches it: `document.execCommand("copy")`
either returns a boolean or throws.  The result records whether the temporary
off-screen textarea is still attached to the document when the promise
settles, and how the promise settles. -/

inductive ExecOutcome where
  | ok (success : Bool)
  | throws (msg : String)
deriving DecidableEq, Repr

inductive CopyOutcome where
  | resolved
  | rejected (msg : String)
deriving DecidableEq, Repr

/-- The legacy fallback of `copyToClipboard` (lines 8–27): create the
textarea, style it off-screen, `appendChild`, `select`, run the copy command,
`removeChild`, then reject on a false return or an exception.  The first
component is true iff the textarea is still attached at exit. -/
def legacyCopyFallback (exec : ExecOutcome) : Bool × CopyOutcome :=
  -- document.body.appendChild(textarea): attached; textarea.select()
  match exec with
  | .ok success =>
    -- const ok = document.execCommand("copy"); document.body.removeChild(...)
    if success then (false, .resolved) else (false, .rejected "Copy failed")
  | .throws msg =>
    -- the exception skips removeChild and lands in the catch, which rejects
    (true, .rejected msg)

/-- C7 (code evaluated at the failing input): when the legacy copy command
throws, the fallback rejects — so a failure is never silently reported as
success — but the temporary off-screen element is left attached to the
document: `removeChild` sits inside the `try` after the throwing call and not
in a `finally`, so the throwing exit path skips the cleanup the claim
requires on every path.  On the non-throwing paths the element is removed and
the promise resolves exactly when the command reported success. -/
theorem copy_fallback_cleanup :
    (legacyCopyFallback (ExecOutcome.throws "NotSupportedError")).1 = true ∧
    (legacyCopyFallback (ExecOutcome.throws "NotSupportedError")).2
      = CopyOutcome.rejected "NotSupportedError" ∧
    (∀ b : Bool, (legacyCopyFallback (ExecOutcome.ok b)).1 = false) ∧
    (∀ b : Bool,
      ((legacyCopyFallback (ExecOutcome.ok b)).2 = CopyOutcome.resolved ↔ b = true)) := by
  refine ⟨rfl, rfl, fun b => ?_, fun b => ?_⟩
  · cases b <;> rfl
  · cases b <;> simp [legacyCopyFallback]
